import Mathlib

/-
Verification development for the X6 example repository.

The two pieces of original logic in the repository are embedded here:

* `AsyncBatchProcessor` — the cooperative batching helper from
  `src/examples/x6-example-features/src/utils/ELK_LAYOUT_GUIDE.md`
  (class `AsyncBatchProcessor`, `processBatches`,
  `processBatchesWithAutoMerge`).

* `ElkLayoutProcessor` — the X6 <-> ELK adapter from
  `src/examples/x6-example-features/src/utils/ElkLayoutProcessor.ts`
  (`convertX6ToElk`, `buildLayoutOptions`, `performLayout`,
  `convertElkToX6`, `applyLayoutToGraph`, `applyFlowchartLayout`,
  `createPresetConfig`), and `Guide` — the JavaScript variant of the
  processor appearing in `ELK_LAYOUT_GUIDE.md` (`smartLayout`,
  its own `createPresetConfig` table).

JavaScript objects are modelled as association lists with string keys
(`objGet`, `objSet`); `new Map(entries).get(k)` is modelled by
`jsMapGet` (last insertion wins); the spread `\x7b...a, ...b\x7d` is
modelled by `objSpread`. The JavaScript `||` idiom on numbers and
strings (falsy 0 / empty string fall through to the default) is
modelled by `jsOrNum` / `jsOrStr`. Promises are pure values; the one
loop whose termination depends on the batch size is given explicit
fuel, with `none` denoting a run that never resolves.
-/

/-- Property access `o[k]` on a JavaScript object modelled as an
association list with unique keys (first match). -/
def objGet {α : Type} : List (String × α) → String → Option α
  | [], _ => none
  | p :: rest, k => if p.1 = k then some p.2 else objGet rest k

/-- Property write `o[k] = v`: replace the value of an existing key in
place, otherwise append the key at the end (JS insertion order). -/
def objSet {α : Type} : List (String × α) → String → α → List (String × α)
  | [], k, v => [(k, v)]
  | p :: rest, k, v => if p.1 = k then (k, v) :: rest else p :: objSet rest k v

/-- Lookup in `new Map(entries)`: with duplicate keys the last inserted
entry wins, as in the JavaScript `Map` constructor. -/
def jsMapGet {α : Type} (entries : List (String × α)) (k : String) : Option α :=
  entries.foldl (fun acc p => if p.1 = k then some p.2 else acc) none

/-- Object spread: keys of `overrides` win over keys of `base`. -/
def objSpread {α : Type} (base overrides : List (String × α)) : List (String × α) :=
  overrides.foldl (fun acc p => objSet acc p.1 p.2) base

/-- The JavaScript `v || d` idiom for an optional number: `undefined`
and the falsy `0` both fall through to the default. -/
def jsOrNum (v : Option Int) (d : Int) : Int :=
  match v with
  | none => d
  | some n => if n = 0 then d else n

/-- The JavaScript `s || d` idiom for an optional string: `undefined`
and the falsy empty string both fall through to the default. -/
def jsOrStr (v : Option String) (d : String) : String :=
  match v with
  | none => d
  | some s => if s = "" then d else s

/-- The JavaScript `a || b` chain on optional strings, keeping the
result optional: a present but empty string is falsy. -/
def jsOrStringOpt : Option String → Option String → Option String
  | some s, b => if s = "" then b else some s
  | none, b => b

/-- JavaScript `Math.round`: round half toward positive infinity. -/
def jsRound (q : ℚ) : Int :=
  Int.floor (q + 1/2)

/-- Fold characterization of `jsMapGet`: the accumulator only survives
when no entry matches the key. -/
theorem jsMapGet_foldl {α : Type} (k : String) (l : List (String × α)) :
    ∀ acc : Option α,
      l.foldl (fun acc p => if p.1 = k then some p.2 else acc) acc =
        match jsMapGet l k with
        | some v => some v
        | none => acc := by
  induction l with
  | nil => intro acc; simp [jsMapGet]
  | cons q rest ih =>
    intro acc
    show List.foldl _ (if q.1 = k then some q.2 else acc) rest = _
    rw [ih]
    have hr : jsMapGet (q :: rest) k =
        match jsMapGet rest k with
        | some v => some v
        | none => if q.1 = k then some q.2 else none := by
      show List.foldl _ (if q.1 = k then some q.2 else none) rest = _
      rw [ih]
    rw [hr]
    cases hm : jsMapGet rest k with
    | some v => rfl
    | none => by_cases hq : q.1 = k <;> simp [hq]

/-- A key absent from every entry is not found by `jsMapGet`. -/
theorem jsMapGet_eq_none {α : Type} {l : List (String × α)} {k : String}
    (h : ∀ p ∈ l, p.1 ≠ k) : jsMapGet l k = none := by
  induction l with
  | nil => rfl
  | cons q rest ih =>
    have hq : q.1 ≠ k := h q (by simp)
    have hrest : jsMapGet rest k = none := ih (fun p hp => h p (by simp [hp]))
    show List.foldl _ (if q.1 = k then some q.2 else none) rest = none
    rw [jsMapGet_foldl, hrest, if_neg hq]

/-- With unique keys, `jsMapGet` finds the entry holding the key. -/
theorem jsMapGet_eq_some {α : Type} {l : List (String × α)} {k : String} {v : α}
    (hnd : (l.map Prod.fst).Nodup) (hmem : (k, v) ∈ l) : jsMapGet l k = some v := by
  induction l with
  | nil => cases hmem
  | cons q rest ih =>
    rw [List.map_cons, List.nodup_cons] at hnd
    rcases List.mem_cons.mp hmem with hq | hrestmem
    · subst hq
      have hnone : jsMapGet rest k = none := by
        apply jsMapGet_eq_none
        intro p hp hpk
        have hmem : p.1 ∈ rest.map Prod.fst := List.mem_map_of_mem Prod.fst hp
        rw [hpk] at hmem
        exact hnd.1 hmem
      show List.foldl _ (if k = k then some v else none) rest = some v
      rw [jsMapGet_foldl, hnone, if_pos rfl]
    · have hsome : jsMapGet rest k = some v := ih hnd.2 hrestmem
      show List.foldl _ (if q.1 = k then some q.2 else none) rest = some v
      rw [jsMapGet_foldl, hsome]

/-- Reading back the key just written. -/
theorem objGet_objSet_self {α : Type} (o : List (String × α)) (k : String) (v : α) :
    objGet (objSet o k v) k = some v := by
  induction o with
  | nil => simp [objSet, objGet]
  | cons p rest ih =>
    by_cases hp : p.1 = k
    · simp [objSet, hp, objGet]
    · simp [objSet, hp, objGet, ih]

/-- Writing one key leaves every other key unchanged. -/
theorem objGet_objSet_ne {α : Type} (o : List (String × α)) {k k' : String} (v : α)
    (h : k' ≠ k) : objGet (objSet o k v) k' = objGet o k' := by
  induction o with
  | nil => simp [objSet, objGet, Ne.symm h]
  | cons p rest ih =>
    by_cases hp : p.1 = k
    · subst hp
      simp [objSet, objGet, Ne.symm h]
    · simp [objSet, objGet, hp, ih]

/-- A key absent from every entry reads as `undefined`. -/
theorem objGet_eq_none {α : Type} {l : List (String × α)} {k : String}
    (h : ∀ p ∈ l, p.1 ≠ k) : objGet l k = none := by
  induction l with
  | nil => rfl
  | cons q rest ih =>
    have hq : q.1 ≠ k := h q (by simp)
    simp [objGet, hq]
    exact ih (fun p hp => h p (by simp [hp]))

/-- Reading through an object spread: a key present among the overrides
(last duplicate winning, as the spread writes them in order) hides the
base object's value, otherwise the base value shows through. -/
theorem objGet_objSpread {α : Type} (overrides : List (String × α)) :
    ∀ (base : List (String × α)) (k : String),
      objGet (objSpread base overrides) k =
        match jsMapGet overrides k with
        | some v => some v
        | none => objGet base k := by
  induction overrides with
  | nil => intro base k; simp [objSpread, jsMapGet]
  | cons p rest ih =>
    intro base k
    show objGet (List.foldl _ (objSet base p.1 p.2) rest) k = _
    rw [show List.foldl (fun acc q => objSet acc q.1 q.2) (objSet base p.1 p.2) rest =
          objSpread (objSet base p.1 p.2) rest from rfl, ih]
    have hm : jsMapGet (p :: rest) k =
        match jsMapGet rest k with
        | some v => some v
        | none => if p.1 = k then some p.2 else none := by
      show List.foldl _ (if p.1 = k then some p.2 else none) rest = _
      rw [jsMapGet_foldl]
    rw [hm]
    cases hr : jsMapGet rest k with
    | some v => rfl
    | none =>
      by_cases hp : p.1 = k
      · subst hp; simp [objGet_objSet_self]
      · simp [hp, objGet_objSet_ne base p.2 (fun hh => hp hh.symm)]

namespace AsyncBatchProcessor

/-- One invocation of the `onProgress` callback of `processBatches`:
the fraction `currentIndex / total` (`none` encodes the JavaScript
`NaN` produced by `0 / 0` on an empty input), the number of items
processed so far, and the total item count. -/
structure Progress where
  progress : Option ℚ
  processed : Nat
  total : Nat
deriving DecidableEq, Repr

/-- The body of `processBatches` (`processNextBatch` in the source):
slice the next batch, apply the user transform, record the progress
callback, and either recurse on the rest of the array or resolve.
The recursion through `requestAnimationFrame` is given explicit fuel;
`none` models a run that never resolves (the source loops forever when
`batchSize` is `0` on a non-empty array). -/
def processBatchesGo {T R : Type} (f : List T → R) (batchSize : Nat)
    (fullArray : List T) (total : Nat) :
    Nat → Nat → Option (List R × List Progress)
  | 0, _ => none
  | fuel + 1, currentIndex =>
    let batchEnd := min (currentIndex + batchSize) total
    let currentBatch := (fullArray.drop currentIndex).take (batchEnd - currentIndex)
    let batchResult := f currentBatch
    let ev : Progress :=
      ⟨if total = 0 then none else some ((batchEnd : ℚ) / (total : ℚ)), batchEnd, total⟩
    if batchEnd < total then
      match processBatchesGo f batchSize fullArray total fuel batchEnd with
      | none => none
      | some (rs, evs) => some (batchResult :: rs, ev :: evs)
    else
      some ([batchResult], [ev])

/-- `AsyncBatchProcessor.processBatches`: split `fullArray` into
consecutive batches of `batchSize`, apply `f` to each batch in order,
and return the list of per-batch results together with the trace of
progress-callback invocations. The first batch is always processed
(the source calls `processNextBatch` unconditionally), even when the
array is empty. -/
def processBatches {T R : Type} (fullArray : List T) (batchSize : Nat)
    (f : List T → R) : Option (List R × List Progress) :=
  processBatchesGo f batchSize fullArray fullArray.length (fullArray.length + 1) 0

/-- A field value of a batch-result object: either an array (whose
elements the merge never inspects) or any non-array value. This is
exactly the distinction `Array.isArray` draws in the source. -/
inductive JVal (α : Type) where
  | arr : List α → JVal α
  | val : α → JVal α
deriving DecidableEq, Repr

/-- A batch-result object: string-keyed fields in insertion order. -/
abbrev Obj (α : Type) := List (String × JVal α)

/-- The per-field merge rule of `processBatchesWithAutoMerge`: when
both the accumulated value and the current value are arrays they are
concatenated, otherwise the current (later) value wins. -/
def mergeField {α : Type} (mergedValue : Option (JVal α)) (currentValue : JVal α) :
    JVal α :=
  match currentValue, mergedValue with
  | JVal.arr ys, some (JVal.arr xs) => JVal.arr (xs ++ ys)
  | cv, _ => cv

/-- The inner `for key in current` loop of `processBatchesWithAutoMerge`:
fold the fields of `current` into the accumulator `merged`. -/
def mergeInto {α : Type} (merged current : Obj α) : Obj α :=
  current.foldl (fun acc p => objSet acc p.1 (mergeField (objGet acc p.1) p.2)) merged

/-- The merging tail of `processBatchesWithAutoMerge`: an empty
batch-result list raises the explicit error, otherwise the first
result (shallow-copied) seeds the accumulator and the remaining
results are folded in. -/
def autoMerge {α : Type} : List (Obj α) → Except String (Obj α)
  | [] => Except.error ("没有批次处理结果可供合并")
  | first :: rest => Except.ok (rest.foldl mergeInto first)

/-- `AsyncBatchProcessor.processBatchesWithAutoMerge`: run
`processBatches` and fold the batch results with `autoMerge`. -/
def processBatchesWithAutoMerge {T α : Type} (fullArray : List T) (batchSize : Nat)
    (f : List T → Obj α) : Option (Except String (Obj α)) :=
  (processBatches fullArray batchSize f).map (fun pr => autoMerge pr.1)

/-- A successful `processBatchesGo` run always produces at least one
batch result: the loop body pushes a result before testing whether any
items remain. -/
theorem processBatchesGo_ne_nil {T R : Type} (f : List T → R) (batchSize : Nat)
    (fullArray : List T) (total : Nat) :
    ∀ (fuel currentIndex : Nat) (rs : List R) (evs : List Progress),
      processBatchesGo f batchSize fullArray total fuel currentIndex = some (rs, evs) →
      rs ≠ [] := by
  intro fuel
  induction fuel with
  | zero => intro ci rs evs h; exact absurd h (by simp [processBatchesGo])
  | succ fuel ih =>
    intro ci rs evs h
    rw [processBatchesGo] at h
    by_cases hlt : min (ci + batchSize) total < total
    · rw [if_pos hlt] at h
      cases hrec : processBatchesGo f batchSize fullArray total fuel
          (min (ci + batchSize) total) with
      | none => rw [hrec] at h; cases h
      | some pr =>
        rw [hrec] at h
        cases h
        simp
    · rw [if_neg hlt] at h
      cases h
      simp

/-- Claim C10: for an empty input array, `processBatches` still invokes
the per-batch transform exactly once with an empty batch, invokes the
progress callback exactly once with a `NaN` fraction (`0 / 0`, encoded
`none`) and `processed = total = 0`, and resolves to the one-element
result list holding that single transform result. -/
theorem processBatches_empty_input {T R : Type} (batchSize : Nat) (f : List T → R) :
    processBatches ([] : List T) batchSize f = some ([f []], [⟨none, 0, 0⟩]) := by
  simp [processBatches, processBatchesGo]

/-- Counterexample to claim C1: calling `processBatchesWithAutoMerge`
on an empty input array with batch size 5 resolves with a merged
object (the transform applied to one empty batch), not with the
defined no-batches-to-merge error. -/
theorem autoMerge_empty_input_resolves_ok :
    processBatchesWithAutoMerge ([] : List Int) 5
        (fun b => [(("cells" : String), JVal.arr b)]) =
      some (Except.ok [(("cells" : String), JVal.arr ([] : List Int))]) := by
  rfl

/-- Claim C1 (amended): `processBatchesWithAutoMerge` on an empty input
array resolves, for every batch size and transform, with the (copied)
result of applying the transform to a single empty batch; the
no-batches-to-merge error branch is unreachable through
`processBatches`, which never resolves with an empty result list. -/
theorem processBatchesWithAutoMerge_empty_input_spec {T α : Type} :
    (∀ (batchSize : Nat) (f : List T → Obj α),
        processBatchesWithAutoMerge ([] : List T) batchSize f =
          some (Except.ok (f []))) ∧
    (∀ (fullArray : List T) (batchSize : Nat) (f : List T → Obj α)
        (rs : List (Obj α)) (evs : List Progress),
        processBatches fullArray batchSize f = some (rs, evs) → rs ≠ []) := by
  constructor
  · intro batchSize f
    rw [processBatchesWithAutoMerge, processBatches_empty_input]
    rfl
  · intro fullArray batchSize f rs evs h
    exact processBatchesGo_ne_nil f batchSize fullArray fullArray.length
      (fullArray.length + 1) 0 rs evs h

theorem processBatchesWithAutoMerge_empty_input_spec_witness :
    ([[(("k" : String), JVal.val (0 : Int))]] : List (Obj Int)) ≠ [] :=
  (processBatchesWithAutoMerge_empty_input_spec (T := Int) (α := Int)).2
    [1] 1 (fun _ => [(("k" : String), JVal.val (0 : Int))])
    [[(("k" : String), JVal.val (0 : Int))]] [⟨some 1, 1, 1⟩]
    (by norm_num [processBatches, processBatchesGo])

/-- Workhorse for claim C2: with a positive batch size and enough fuel,
the loop resolves; its result list applies the transform once to each
member of a partition of the remaining items into consecutive batches,
every batch is at most `batchSize` long, and every batch except the
final one is exactly `batchSize` long. The partition and the progress
trace do not depend on the transform. -/
theorem processBatchesGo_spec {T : Type} (batchSize : Nat) (hbs : 0 < batchSize)
    (fullArray : List T) :
    ∀ (fuel currentIndex : Nat), currentIndex ≤ fullArray.length →
      fullArray.length - currentIndex < fuel →
      ∃ (chunks : List (List T)) (evs : List Progress),
        (∀ (R : Type) (f : List T → R),
          processBatchesGo f batchSize fullArray fullArray.length fuel currentIndex =
            some (chunks.map f, evs)) ∧
        chunks.flatten = fullArray.drop currentIndex ∧
        (∀ c ∈ chunks, c.length ≤ batchSize) ∧
        (∀ c ∈ chunks.dropLast, c.length = batchSize) := by
  intro fuel
  induction fuel with
  | zero => intro ci _ hfuel; omega
  | succ fuel ih =>
    intro ci hci hfuel
    by_cases hlt : min (ci + batchSize) fullArray.length < fullArray.length
    · -- a full batch is taken and the loop continues
      have hend : min (ci + batchSize) fullArray.length = ci + batchSize := by omega
      have hrec := ih (ci + batchSize) (by omega) (by omega)
      obtain ⟨chunks, evs, hrun, hjoin, hle, hfull⟩ := hrec
      have hchunksne : chunks ≠ [] := by
        intro hnil
        rw [hnil] at hjoin
        have : fullArray.length - (ci + batchSize) = 0 := by
          have := congrArg List.length hjoin
          simpa using this.symm
        omega
      refine ⟨(fullArray.drop ci).take batchSize :: chunks,
        ⟨some (((ci + batchSize : Nat) : ℚ) / (fullArray.length : ℚ)),
          ci + batchSize, fullArray.length⟩ :: evs, ?_, ?_, ?_, ?_⟩
      · intro R f
        rw [processBatchesGo]
        simp only [hend, if_pos (hend ▸ hlt), hrun R f]
        have htot : ¬ fullArray.length = 0 := by omega
        simp [htot, hend]
      · show List.take batchSize (List.drop ci fullArray) ++ chunks.flatten =
          List.drop ci fullArray
        rw [hjoin]
        rw [show List.drop (ci + batchSize) fullArray =
              List.drop batchSize (List.drop ci fullArray) by rw [List.drop_drop],
          List.take_append_drop]
      · intro c hc
        rcases List.mem_cons.mp hc with hc | hc
        · rw [hc]; exact le_trans (List.length_take_le _ _) (le_refl _)
        · exact hle c hc
      · intro c hc
        rw [List.dropLast_cons_of_ne_nil hchunksne] at hc
        rcases List.mem_cons.mp hc with hc | hc
        · rw [hc, List.length_take, List.length_drop]
          omega
        · exact hfull c hc
    · -- the final (possibly shorter) batch: the loop resolves
      have hend : min (ci + batchSize) fullArray.length = fullArray.length := by omega
      refine ⟨[(fullArray.drop ci).take (fullArray.length - ci)],
        [⟨if fullArray.length = 0 then none
            else some ((fullArray.length : ℚ) / (fullArray.length : ℚ)),
          fullArray.length, fullArray.length⟩], ?_, ?_, ?_, ?_⟩
      · intro R f
        rw [processBatchesGo]
        simp only [hend, if_neg (by omega : ¬ fullArray.length < fullArray.length)]
        rfl
      · have htake : (fullArray.drop ci).take (fullArray.length - ci) =
            fullArray.drop ci := by
          apply List.take_of_length_le
          rw [List.length_drop]
        show (fullArray.drop ci).take (fullArray.length - ci) ++ [].flatten =
          List.drop ci fullArray
        rw [htake]
        simp
      · intro c hc
        rcases List.mem_singleton.mp hc with hc
        rw [hc, List.length_take, List.length_drop]
        omega
      · intro c hc
        simp at hc

/-- Claim C2: for every input array and positive batch size,
`processBatches` partitions the array into consecutive non-overlapping
batches of the requested size (only the final batch may be smaller),
produces exactly one transform result per batch in batch order, and
with the identity transform the resolved result list flattens back to
the original array in its original order. -/
theorem processBatches_spec {T R : Type} (fullArray : List T) (batchSize : Nat)
    (f : List T → R) (hbs : 0 < batchSize) :
    ∃ (chunks : List (List T)) (evs : List Progress),
      processBatches fullArray batchSize f = some (chunks.map f, evs) ∧
      processBatches fullArray batchSize (fun b => b) = some (chunks, evs) ∧
      chunks.flatten = fullArray ∧
      (∀ c ∈ chunks, c.length ≤ batchSize) ∧
      (∀ c ∈ chunks.dropLast, c.length = batchSize) := by
  obtain ⟨chunks, evs, hrun, hjoin, hle, hfull⟩ :=
    processBatchesGo_spec batchSize hbs fullArray (fullArray.length + 1) 0
      (Nat.zero_le _) (by omega)
  refine ⟨chunks, evs, hrun R f, ?_, by simpa using hjoin, hle, hfull⟩
  have := hrun (List T) (fun b => b)
  simpa using this

theorem processBatches_spec_witness :
    (0 < 2) ∧
    ∃ (chunks : List (List Nat)) (evs : List Progress),
      processBatches [1, 2, 3, 4, 5] 2 (fun b => b) = some (chunks.map (fun b => b), evs) ∧
      processBatches [1, 2, 3, 4, 5] 2 (fun b => b) = some (chunks, evs) ∧
      chunks.flatten = [1, 2, 3, 4, 5] ∧
      (∀ c ∈ chunks, c.length ≤ 2) ∧
      (∀ c ∈ chunks.dropLast, c.length = 2) :=
  ⟨by decide, processBatches_spec [1, 2, 3, 4, 5] 2 (fun b => b) (by decide)⟩

/-- Per-field reading of one `mergeInto` pass, assuming the current
batch result has unique keys (as every JavaScript object does): a field
present in the current result is merged by the array-concatenation /
last-write-wins rule against the accumulator, and a field absent from
the current result keeps its accumulated value. -/
theorem objGet_mergeInto {α : Type} (c : Obj α) :
    ∀ (m : Obj α) (k : String), (c.map Prod.fst).Nodup →
      objGet (mergeInto m c) k =
        match objGet c k with
        | some cv => some (mergeField (objGet m k) cv)
        | none => objGet m k := by
  induction c with
  | nil => intro m k _; rfl
  | cons p rest ih =>
    intro m k hnd
    rw [List.map_cons, List.nodup_cons] at hnd
    have hstep : mergeInto m (p :: rest) =
        mergeInto (objSet m p.1 (mergeField (objGet m p.1) p.2)) rest := rfl
    rw [hstep, ih _ k hnd.2]
    by_cases hp : p.1 = k
    · subst hp
      have hnone : objGet rest p.1 = none := by
        apply objGet_eq_none
        intro q hq hqk
        have : q.1 ∈ rest.map Prod.fst := List.mem_map_of_mem Prod.fst hq
        rw [hqk] at this
        exact hnd.1 this
      rw [hnone]
      show objGet (objSet m p.1 _) p.1 = _
      rw [objGet_objSet_self]
      have hg : objGet (p :: rest) p.1 = some p.2 := by simp [objGet]
      rw [hg]
    · have hget : objGet (p :: rest) k = objGet rest k := by
        simp [objGet, hp]
      rw [hget, objGet_objSet_ne m _ (fun hh => hp hh.symm)]

/-- Claim C3: when `processBatches` resolves with two or more batch
results, `processBatchesWithAutoMerge` seeds the accumulator with the
first result and folds every subsequent result in, in batch order; on
each field the rule is: two array values concatenate (earlier batch
first), and in every other case the later batch's value wins. -/
theorem processBatchesWithAutoMerge_merge_spec {T α : Type} (fullArray : List T)
    (batchSize : Nat) (f : List T → Obj α) (r1 : Obj α) (rest : List (Obj α))
    (evs : List Progress)
    (hres : processBatches fullArray batchSize f = some (r1 :: rest, evs)) :
    processBatchesWithAutoMerge fullArray batchSize f =
      some (Except.ok (rest.foldl mergeInto r1)) ∧
    (∀ (m c : Obj α) (k : String), (c.map Prod.fst).Nodup →
      objGet (mergeInto m c) k =
        match objGet m k, objGet c k with
        | some (JVal.arr xs), some (JVal.arr ys) => some (JVal.arr (xs ++ ys))
        | _, some cv => some cv
        | mv, none => mv) := by
  constructor
  · rw [processBatchesWithAutoMerge, hres]
    rfl
  · intro m c k hnd
    rw [objGet_mergeInto c m k hnd]
    cases hc : objGet c k with
    | none => cases objGet m k with
      | none => rfl
      | some mv => cases mv <;> rfl
    | some cv =>
      cases hm : objGet m k with
      | none => cases cv <;> rfl
      | some mv => cases mv <;> cases cv <;> rfl

theorem processBatchesWithAutoMerge_merge_spec_witness :
    processBatchesWithAutoMerge [(1 : Int), 2, 3, 4] 2
        (fun b => [(("cells" : String), JVal.arr b)]) =
      some (Except.ok [(("cells" : String), JVal.arr [(1 : Int), 2, 3, 4])]) :=
  (processBatchesWithAutoMerge_merge_spec [(1 : Int), 2, 3, 4] 2
      (fun b => [(("cells" : String), JVal.arr b)])
      [(("cells" : String), JVal.arr [(1 : Int), 2])]
      [[(("cells" : String), JVal.arr [(3 : Int), 4])]]
      [⟨some (1/2 : ℚ), 2, 4⟩, ⟨some (1 : ℚ), 4, 4⟩]
      (by norm_num [processBatches, processBatchesGo])).1.trans (by rfl)

end AsyncBatchProcessor

namespace ElkLayoutProcessor

/-- An X6 node as the adapter reads it: identifier, position
(`getPosition`), size (`getSize`), and the three label-storage
locations probed on `toJSON()` output (`label`, `attrs.text.text`,
`attrs.label.text`). -/
structure X6Node where
  id : String
  x : Int
  y : Int
  width : Int
  height : Int
  label : Option String
  attrsTextText : Option String
  attrsLabelText : Option String
deriving DecidableEq, Repr

/-- An X6 edge as the adapter reads it: identifier plus the single
source and target cell identifiers (`getSourceCellId`,
`getTargetCellId`). -/
structure X6Edge where
  id : String
  source : String
  target : String
deriving DecidableEq, Repr

/-- The live graph handle: `getNodes()` and `getEdges()`. -/
structure X6Graph where
  nodes : List X6Node
  edges : List X6Edge
deriving DecidableEq, Repr

/-- The `spacing` block of `ElkLayoutConfig`; every field optional. -/
structure Spacing where
  nodeNodeBetweenLayers : Option Int
  edgeNodeBetweenLayers : Option Int
  nodeNode : Option Int
  edgeEdge : Option Int
deriving DecidableEq, Repr

/-- The processor's resolved configuration (`this.config` after the
constructor merge). The worker-url field plays no role in the claims
and is omitted; `useWorker` is kept for completeness. -/
structure ElkLayoutConfig where
  algorithm : String
  direction : String
  spacing : Spacing
  useWorker : Bool
  layoutOptions : List (String × String)
deriving DecidableEq, Repr

/-- A caller-supplied `ElkLayoutConfig`: all fields optional, as in the
TypeScript interface. -/
structure ElkConfigInput where
  algorithm : Option String
  direction : Option String
  spacing : Option Spacing
  useWorker : Option Bool
  layoutOptions : Option (List (String × String))
deriving DecidableEq, Repr

/-- The constructor's shallow merge of the default configuration with
the caller-supplied one: a field present in the input replaces the
default wholesale (including the whole `spacing` object). -/
def mkConfig (config : ElkConfigInput) : ElkLayoutConfig :=
  { algorithm := config.algorithm.getD ("layered")
    direction := config.direction.getD ("DOWN")
    spacing := config.spacing.getD ⟨some 25, some 15, some 20, some 15⟩
    useWorker := config.useWorker.getD true
    layoutOptions := config.layoutOptions.getD [] }

/-- The processor configuration produced by `new ElkLayoutProcessor()`. -/
def defaultConfig : ElkLayoutConfig :=
  mkConfig ⟨none, none, none, none, none⟩

/-- Caller-supplied `X6ToElkOptions`: all fields optional. -/
structure X6ToElkOptions where
  defaultNodeSize : Option (Int × Int)
  autoCalculateSize : Option Bool
  edgeRouting : Option String
  preserveNodeData : Option Bool
deriving DecidableEq, Repr

/-- The empty `X6ToElkOptions` object. -/
def defaultX6Opts : X6ToElkOptions := ⟨none, none, none, none⟩

/-- An ELK child-node descriptor emitted by the forward conversion:
identifier, resolved width/height, labels (pairs of label id and text),
and the embedded original node data when `preserveNodeData` is set. -/
structure ElkNodeDesc where
  id : String
  width : Int
  height : Int
  labels : List (String × String)
  x6Data : Option X6Node
deriving DecidableEq, Repr

/-- An ELK edge descriptor emitted by the forward conversion. -/
structure ElkEdgeDesc where
  id : String
  sources : List String
  targets : List String
  x6Data : Option X6Edge
deriving DecidableEq, Repr

/-- The root ELK graph descriptor handed to the layout engine. -/
structure ElkGraphDesc where
  id : String
  layoutOptions : List (String × String)
  children : List ElkNodeDesc
  edges : List ElkEdgeDesc
deriving DecidableEq, Repr

/-- `buildLayoutOptions`: algorithm, direction, the four spacing
directives (each passed through the `|| default` idiom and then floored
by `Math.max` at its minimum), the edge-routing style, the fixed table
of tuning directives, and finally the caller's `layoutOptions` spread
over the computed defaults (caller keys win). -/
def buildLayoutOptions (config : ElkLayoutConfig) (options : X6ToElkOptions) :
    List (String × String) :=
  objSpread
    [ (("elk.algorithm"), config.algorithm)
    , (("elk.direction"), config.direction)
    , (("elk.spacing.nodeNode"), toString (max (jsOrNum config.spacing.nodeNode 30) 30))
    , (("elk.layered.spacing.nodeNodeBetweenLayers"),
        toString (max (jsOrNum config.spacing.nodeNodeBetweenLayers 60) 60))
    , (("elk.layered.spacing.edgeNodeBetweenLayers"),
        toString (max (jsOrNum config.spacing.edgeNodeBetweenLayers 30) 30))
    , (("elk.spacing.edgeEdge"), toString (max (jsOrNum config.spacing.edgeEdge 20) 20))
    , (("elk.edge.routing"), jsOrStr options.edgeRouting ("ORTHOGONAL"))
    , (("elk.layered.crossingMinimization.strategy"), ("LAYER_SWEEP"))
    , (("elk.layered.nodePlacement.strategy"), ("BRANDES_KOEPF"))
    , (("elk.layered.cycleBreaking.strategy"), ("GREEDY"))
    , (("elk.layered.compaction.postCompaction.strategy"), ("EDGE_LENGTH"))
    , (("elk.layered.compaction.postCompaction.constraints"), ("SEQUENCE"))
    , (("elk.layered.edgeRouting.selfLoopDistribution"), ("EQUALLY"))
    , (("elk.layered.edgeRouting.selfLoopOrdering"), ("STACKED"))
    , (("elk.layered.thoroughness"), ("100"))
    , (("elk.layered.unnecessaryBendpoints"), ("true"))
    , (("elk.portConstraints"), ("FIXED_SIDE"))
    , (("elk.port.side"), ("SOUTH"))
    ]
    config.layoutOptions

/-- The label text probed from the node data:
`label || attrs.text.text || attrs.label.text`. -/
def nodeLabelText (node : X6Node) : Option String :=
  jsOrStringOpt node.label (jsOrStringOpt node.attrsTextText node.attrsLabelText)

/-- `convertX6ToElk`: resolve the conversion options against their
defaults, convert every node (current size when auto-sizing is on and
the size is positive, else the default size; attach a label when one of
the label locations holds a truthy string; embed the original node data
when requested), convert every edge (single source and target
identifier), and build the root descriptor with the computed layout
directives. -/
def convertX6ToElk (config : ElkLayoutConfig) (nodes : List X6Node)
    (edges : List X6Edge) (options : X6ToElkOptions) : ElkGraphDesc :=
  let defaultNodeSize := options.defaultNodeSize.getD (80, 40)
  let autoCalculateSize := options.autoCalculateSize.getD true
  let preserveNodeData := options.preserveNodeData.getD true
  let resolvedOptions : X6ToElkOptions :=
    { defaultNodeSize := some defaultNodeSize
      autoCalculateSize := some autoCalculateSize
      edgeRouting := some (options.edgeRouting.getD ("ORTHOGONAL"))
      preserveNodeData := some preserveNodeData }
  let elkNodes : List ElkNodeDesc := nodes.map (fun node =>
    { id := node.id
      width := if autoCalculateSize ∧ node.width > 0 then node.width
        else defaultNodeSize.1
      height := if autoCalculateSize ∧ node.height > 0 then node.height
        else defaultNodeSize.2
      labels :=
        match nodeLabelText node with
        | some s => if s = "" then [] else [(node.id ++ ("-label"), s)]
        | none => []
      x6Data := if preserveNodeData then some node else none })
  let elkEdges : List ElkEdgeDesc := edges.map (fun edge =>
    { id := edge.id
      sources := [edge.source]
      targets := [edge.target]
      x6Data := if preserveNodeData then some edge else none })
  { id := ("root")
    layoutOptions := buildLayoutOptions config resolvedOptions
    children := elkNodes
    edges := elkEdges }

/-- A node of the layout result returned by the engine: the computed
fields are all optional in the elkjs schema. -/
structure ElkNodeRes where
  id : String
  x : Option Int
  y : Option Int
  width : Option Int
  height : Option Int
deriving DecidableEq, Repr

/-- One routing section of a result edge. -/
structure ElkSection where
  bendPoints : Option (List (Int × Int))
deriving DecidableEq, Repr

/-- An edge of the layout result returned by the engine. -/
structure ElkEdgeRes where
  id : String
  sources : List String
  targets : List String
  sections : Option (List ElkSection)
deriving DecidableEq, Repr

/-- The root of the layout result returned by the engine. -/
structure ElkGraphRes where
  children : Option (List ElkNodeRes)
  edges : Option (List ElkEdgeRes)
  width : Option Int
  height : Option Int
deriving DecidableEq, Repr

/-- A node entry of `ElkLayoutResult`. -/
structure ResNode where
  id : String
  x : Int
  y : Int
  width : Int
  height : Int
  originalNode : Option X6Node
deriving DecidableEq, Repr

/-- An edge entry of `ElkLayoutResult`. -/
structure ResEdge where
  id : String
  source : String
  target : String
  vertices : List (Int × Int)
  originalEdge : Option X6Edge
deriving DecidableEq, Repr

/-- The adapter's result: flat node and edge records plus the overall
layout size. -/
structure ElkLayoutResult where
  nodes : List ResNode
  edges : List ResEdge
  layoutSize : Int × Int
deriving DecidableEq, Repr

/-- The result returned for a graph with no nodes. -/
def emptyLayoutResult : ElkLayoutResult := ⟨[], [], (0, 0)⟩

/-- `convertElkToX6`: build identifier lookup maps over the original
arrays, map every returned child to a flat node record (missing
coordinates default to 0, missing sizes to the 80 x 40 default via
`||`), map every returned edge to a flat edge record (bend points of
the first section, `''`-defaulted endpoint ids), resolving the
original object by identifier — an unmatched identifier yields an
absent original reference, never an error.

The per-node body of the conversion: coordinates default to 0 and
sizes to the 80 x 40 default through the `||` idiom. -/
def resNodeOf (nodeMap : List (String × X6Node)) (elkNode : ElkNodeRes) : ResNode :=
  { id := elkNode.id
    x := jsOrNum elkNode.x 0
    y := jsOrNum elkNode.y 0
    width := jsOrNum elkNode.width 80
    height := jsOrNum elkNode.height 40
    originalNode := jsMapGet nodeMap elkNode.id }

/-- The per-edge body of `convertElkToX6`: flatten the first routing
section's bend points, default the endpoint ids to the empty string,
and resolve the original edge by identifier. -/
def resEdgeOf (edgeMap : List (String × X6Edge)) (elkEdge : ElkEdgeRes) : ResEdge :=
  let sections := elkEdge.sections.getD []
  let vertices :=
    match sections with
    | [] => []
    | s :: _ => s.bendPoints.getD []
  { id := elkEdge.id
    source := elkEdge.sources.head?.getD ("")
    target := elkEdge.targets.head?.getD ("")
    vertices := vertices
    originalEdge := jsMapGet edgeMap elkEdge.id }

/-- The top level of `convertElkToX6`: build the id-keyed lookup maps
over the original arrays and map the converters over the returned
children and edges. -/
def convertElkToX6 (elkResult : ElkGraphRes) (originalNodes : List X6Node)
    (originalEdges : List X6Edge) : ElkLayoutResult :=
  let nodeMap := originalNodes.map (fun node => (node.id, node))
  let edgeMap := originalEdges.map (fun edge => (edge.id, edge))
  { nodes := (elkResult.children.getD []).map (resNodeOf nodeMap)
    edges := (elkResult.edges.getD []).map (resEdgeOf edgeMap)
    layoutSize := (jsOrNum elkResult.width 0, jsOrNum elkResult.height 0) }

/-- `performLayout`: convert to the ELK schema, delegate to the layout
engine (modelled as a function on descriptors), and convert the result
back. There is no empty-input check here. -/
def performLayout (config : ElkLayoutConfig) (engine : ElkGraphDesc → ElkGraphRes)
    (nodes : List X6Node) (edges : List X6Edge) (options : X6ToElkOptions) :
    ElkLayoutResult :=
  convertElkToX6 (engine (convertX6ToElk config nodes edges options)) nodes edges

/-- A write performed by `applyLayoutToGraph` on the live graph: a node
position write (with an optional eased transition of the given duration
and timing name) or an edge vertex-list write. -/
inductive ApplyEffect where
  | setPosition (node : X6Node) (x y : Int) (transition : Option (Int × String))
  | setVertices (edge : X6Edge) (vertices : List (Int × Int))
deriving DecidableEq, Repr

/-- The write-back loops of `applyLayoutToGraph`: nodes whose original
reference survives get a position write (an eased transition when the
animation duration is positive, a direct write otherwise); edges whose
original reference survives and whose vertex list is non-empty get a
vertex-list write; everything else is skipped. -/
def applyEffects (layoutResult : ElkLayoutResult) (animationDuration : Int) :
    List ApplyEffect :=
  let nodeEffects :=
    if animationDuration > 0 then
      layoutResult.nodes.foldl (fun acc nodeResult =>
        match nodeResult.originalNode with
        | some node => acc ++ [ApplyEffect.setPosition node nodeResult.x nodeResult.y
            (some (animationDuration, ("ease-in-out")))]
        | none => acc) []
    else
      layoutResult.nodes.foldl (fun acc nodeResult =>
        match nodeResult.originalNode with
        | some node => acc ++ [ApplyEffect.setPosition node nodeResult.x nodeResult.y none]
        | none => acc) []
  let edgeEffects :=
    layoutResult.edges.foldl (fun acc edgeResult =>
      match edgeResult.originalEdge with
      | some edge =>
        if edgeResult.vertices.length > 0 then
          acc ++ [ApplyEffect.setVertices edge edgeResult.vertices]
        else acc
      | none => acc) []
  nodeEffects ++ edgeEffects

/-- `applyLayoutToGraph`: short-circuit to the empty result on a graph
with no nodes; otherwise run the layout and write the result back,
returning the layout result together with the writes performed. -/
def applyLayoutToGraph (config : ElkLayoutConfig) (engine : ElkGraphDesc → ElkGraphRes)
    (graph : X6Graph) (layoutOptions : X6ToElkOptions) (animationDuration : Int) :
    ElkLayoutResult × List ApplyEffect :=
  if graph.nodes.length = 0 then (emptyLayoutResult, [])
  else
    let layoutResult := performLayout config engine graph.nodes graph.edges layoutOptions
    (layoutResult, applyEffects layoutResult animationDuration)

/-- The flowchart-specific configuration literal built inside
`applyFlowchartLayout`. -/
def flowchartConfig : ElkLayoutConfig :=
  { algorithm := "layered"
    direction := "DOWN"
    spacing := ⟨some 100, some 50, some 80, some 30⟩
    useWorker := true
    layoutOptions :=
      [ (("elk.edge.routing"), ("ORTHOGONAL"))
      , (("elk.alignment"), ("CENTER"))
      , (("elk.layered.nodePlacement.strategy"), ("BRANDES_KOEPF"))
      , (("elk.layered.nodePlacement.favorStraightEdges"), ("true"))
      , (("elk.layered.nodePlacement.linearSegmentsDeflectionDampening"), ("0.2"))
      , (("elk.layered.crossingMinimization.strategy"), ("LAYER_SWEEP"))
      , (("elk.layered.crossingMinimization.greedySwitch.type"), ("TWO_SIDED"))
      , (("elk.layered.unnecessaryBendpoints"), ("true"))
      , (("elk.layered.straightening.strategy"), ("IMPROVE_STRAIGHTNESS"))
      , (("elk.layered.compaction.postCompaction.strategy"), ("EDGE_LENGTH"))
      , (("elk.layered.compaction.postCompaction.constraints"), ("SEQUENCE"))
      , (("elk.layered.compaction.connectedComponents"), ("true"))
      , (("elk.layered.thoroughness"), ("100"))
      , (("elk.layered.cycleBreaking.strategy"), ("GREEDY"))
      , (("elk.portConstraints"), ("FREE"))
      , (("elk.portAlignment"), ("CENTER"))
      , (("elk.port.borderOffset"), ("0"))
      , (("elk.layered.edgeRouting.selfLoopDistribution"), ("EQUALLY"))
      , (("elk.layered.edgeRouting.selfLoopOrdering"), ("STACKED"))
      , (("elk.spacing.portPort"), ("10"))
      , (("elk.layered.mergeEdges"), ("true"))
      , (("elk.separateConnectedComponents"), ("false"))
      ] }

/-- The options accepted by `applyFlowchartLayout`: the conversion
options plus an optional partial engine configuration and an optional
animation duration. -/
structure FlowchartOptions where
  defaultNodeSize : Option (Int × Int)
  autoCalculateSize : Option Bool
  edgeRouting : Option String
  preserveNodeData : Option Bool
  elkConfig : Option ElkConfigInput
  animationDuration : Option Int
deriving DecidableEq, Repr

/-- `applyFlowchartLayout`: short-circuit to the empty result on a
graph with no nodes; otherwise merge the flowchart configuration with
the caller's `elkConfig` (caller fields win; the two `layoutOptions`
maps are spread key by key), build a processor on the merged
configuration, and delegate to `applyLayoutToGraph` with the merged
conversion options and the `animationDuration || 600` duration. -/
def applyFlowchartLayout (engine : ElkGraphDesc → ElkGraphRes) (graph : X6Graph)
    (options : FlowchartOptions) : ElkLayoutResult × List ApplyEffect :=
  if graph.nodes.length = 0 then (emptyLayoutResult, [])
  else
    let elkCfg := options.elkConfig.getD ⟨none, none, none, none, none⟩
    let mergedConfig : ElkLayoutConfig :=
      { algorithm := elkCfg.algorithm.getD flowchartConfig.algorithm
        direction := elkCfg.direction.getD flowchartConfig.direction
        spacing := elkCfg.spacing.getD flowchartConfig.spacing
        useWorker := elkCfg.useWorker.getD flowchartConfig.useWorker
        layoutOptions :=
          objSpread flowchartConfig.layoutOptions (elkCfg.layoutOptions.getD []) }
    let layoutOptions : X6ToElkOptions :=
      { defaultNodeSize := some (options.defaultNodeSize.getD (120, 50))
        autoCalculateSize := some (options.autoCalculateSize.getD true)
        edgeRouting := some (options.edgeRouting.getD ("ORTHOGONAL"))
        preserveNodeData := some (options.preserveNodeData.getD true) }
    let processorConfig := mkConfig
      ⟨some mergedConfig.algorithm, some mergedConfig.direction,
        some mergedConfig.spacing, some mergedConfig.useWorker,
        some mergedConfig.layoutOptions⟩
    applyLayoutToGraph processorConfig engine graph layoutOptions
      (jsOrNum options.animationDuration 600)

/-- The `flowchart` preset of the TypeScript `createPresetConfig`. -/
def presetFlowchart : ElkConfigInput :=
  ⟨some ("layered"), some ("DOWN"),
    some ⟨some 80, some 40, some 60, some 20⟩, none,
    some
      [ (("elk.edge.routing"), ("ORTHOGONAL"))
      , (("elk.layered.crossingMinimization.strategy"), ("LAYER_SWEEP"))
      , (("elk.layered.nodePlacement.strategy"), ("BRANDES_KOEPF"))
      , (("elk.alignment"), ("CENTER"))
      , (("elk.layered.nodePlacement.favorStraightEdges"), ("true"))
      , (("elk.layered.nodePlacement.linearSegmentsDeflectionDampening"), ("0.3"))
      , (("elk.layered.unnecessaryBendpoints"), ("true"))
      , (("elk.layered.compaction.postCompaction.strategy"), ("EDGE_LENGTH"))
      , (("elk.layered.compaction.postCompaction.constraints"), ("SEQUENCE"))
      , (("elk.layered.edgeRouting.selfLoopDistribution"), ("EQUALLY"))
      , (("elk.layered.edgeRouting.selfLoopOrdering"), ("STACKED"))
      , (("elk.layered.edgeRouting.splines.mode"), ("CONSERVATIVE"))
      , (("elk.layered.thoroughness"), ("100"))
      , (("elk.layered.cycleBreaking.strategy"), ("GREEDY"))
      , (("elk.portConstraints"), ("FIXED_SIDE"))
      , (("elk.portAlignment"), ("CENTER"))
      ]⟩

/-- The `hierarchy` preset of the TypeScript `createPresetConfig`. -/
def presetHierarchy : ElkConfigInput :=
  ⟨some ("mrtree"), some ("DOWN"),
    some ⟨some 60, some 30, some 40, some 20⟩, none, none⟩

/-- The `network` preset of the TypeScript `createPresetConfig`. -/
def presetNetwork : ElkConfigInput :=
  ⟨some ("force"), some ("UNDEFINED"),
    some ⟨none, none, some 50, some 25⟩, none, none⟩

/-- The `circular` preset of the TypeScript `createPresetConfig`. -/
def presetCircular : ElkConfigInput :=
  ⟨some ("radial"), some ("UNDEFINED"),
    some ⟨none, none, some 60, some 30⟩, none, none⟩

/-- The `clear` preset of the TypeScript `createPresetConfig`. -/
def presetClear : ElkConfigInput :=
  ⟨some ("layered"), some ("DOWN"),
    some ⟨some 120, some 60, some 80, some 40⟩, none,
    some
      [ (("elk.layered.crossingMinimization.strategy"), ("LAYER_SWEEP"))
      , (("elk.layered.nodePlacement.strategy"), ("SIMPLE"))
      , (("elk.edge.routing"), ("ORTHOGONAL"))
      , (("elk.layered.unnecessaryBendpoints"), ("true"))
      , (("elk.spacing.portPort"), ("20"))
      , (("elk.layered.thoroughness"), ("100"))
      ]⟩

/-- The preset table of the TypeScript `createPresetConfig`, in source
order. -/
def presetTable : List (String × ElkConfigInput) :=
  [ (("flowchart"), presetFlowchart)
  , (("hierarchy"), presetHierarchy)
  , (("network"), presetNetwork)
  , (("circular"), presetCircular)
  , (("clear"), presetClear)
  ]

/-- `createPresetConfig` (TypeScript version):
`presets[preset] || presets.flowchart`. -/
def createPresetConfig (preset : String) : ElkConfigInput :=
  (objGet presetTable preset).getD presetFlowchart

/-- Claim C4: the forward conversion emits exactly one child per node
and one edge descriptor per edge, carrying exactly the original
identifiers in order; the reverse conversion emits one entry per
returned child/edge (never an error), and — when the original
identifiers are distinct, as they are in an X6 graph — resolves each
entry whose identifier matches an original back to that same original
object, while an entry with no matching original gets an absent
original reference. -/
theorem convert_id_roundtrip (config : ElkLayoutConfig) (options : X6ToElkOptions)
    (nodes : List X6Node) (edges : List X6Edge)
    (hn : (nodes.map X6Node.id).Nodup) (he : (edges.map X6Edge.id).Nodup) :
    ((convertX6ToElk config nodes edges options).children.map ElkNodeDesc.id =
      nodes.map X6Node.id) ∧
    ((convertX6ToElk config nodes edges options).edges.map ElkEdgeDesc.id =
      edges.map X6Edge.id) ∧
    (∀ res : ElkGraphRes,
      ((convertElkToX6 res nodes edges).nodes.map ResNode.id =
        (res.children.getD []).map ElkNodeRes.id) ∧
      ((convertElkToX6 res nodes edges).edges.map ResEdge.id =
        (res.edges.getD []).map ElkEdgeRes.id) ∧
      (∀ rn ∈ (convertElkToX6 res nodes edges).nodes,
        (∀ n ∈ nodes, n.id = rn.id → rn.originalNode = some n) ∧
        ((∀ n ∈ nodes, n.id ≠ rn.id) → rn.originalNode = none)) ∧
      (∀ re ∈ (convertElkToX6 res nodes edges).edges,
        (∀ e ∈ edges, e.id = re.id → re.originalEdge = some e) ∧
        ((∀ e ∈ edges, e.id ≠ re.id) → re.originalEdge = none))) := by
  have hnodeKeys : ((nodes.map (fun node => (node.id, node))).map Prod.fst).Nodup := by
    rw [List.map_map]
    exact hn
  have hedgeKeys : ((edges.map (fun edge => (edge.id, edge))).map Prod.fst).Nodup := by
    rw [List.map_map]
    exact he
  refine ⟨?_, ?_, ?_⟩
  · simp [convertX6ToElk, List.map_map, Function.comp]
  · simp [convertX6ToElk, List.map_map, Function.comp]
  · intro res
    refine ⟨?_, ?_, ?_, ?_⟩
    · simp [convertElkToX6, List.map_map, Function.comp, resNodeOf]
    · simp [convertElkToX6, List.map_map, Function.comp, resEdgeOf]
    · intro rn hrn
      have hrn' : rn ∈ (res.children.getD []).map
          (resNodeOf (nodes.map (fun node => (node.id, node)))) := hrn
      rcases List.mem_map.mp hrn' with ⟨c, _, hceq⟩
      have hid : rn.id = c.id := by rw [← hceq]; rfl
      have horig : rn.originalNode =
          jsMapGet (nodes.map (fun node => (node.id, node))) c.id := by
        rw [← hceq]; rfl
      constructor
      · intro n hmem hnid
        rw [horig]
        apply jsMapGet_eq_some hnodeKeys
        have : (n.id, n) ∈ nodes.map (fun node => (node.id, node)) :=
          List.mem_map_of_mem _ hmem
        rw [hnid, hid] at this
        exact this
      · intro hnone
        rw [horig]
        apply jsMapGet_eq_none
        intro p hp
        rcases List.mem_map.mp hp with ⟨n, hnmem, hneq⟩
        rw [← hneq]
        show n.id ≠ c.id
        rw [← hid]
        exact hnone n hnmem
    · intro re hre
      have hre' : re ∈ (res.edges.getD []).map
          (resEdgeOf (edges.map (fun edge => (edge.id, edge)))) := hre
      rcases List.mem_map.mp hre' with ⟨c, _, hceq⟩
      have hid : re.id = c.id := by rw [← hceq]; rfl
      have horig : re.originalEdge =
          jsMapGet (edges.map (fun edge => (edge.id, edge))) c.id := by
        rw [← hceq]; rfl
      constructor
      · intro e hmem heid
        rw [horig]
        apply jsMapGet_eq_some hedgeKeys
        have : (e.id, e) ∈ edges.map (fun edge => (edge.id, edge)) :=
          List.mem_map_of_mem _ hmem
        rw [heid, hid] at this
        exact this
      · intro hnone
        rw [horig]
        apply jsMapGet_eq_none
        intro p hp
        rcases List.mem_map.mp hp with ⟨e, hemem, heeq⟩
        rw [← heeq]
        show e.id ≠ c.id
        rw [← hid]
        exact hnone e hemem

theorem convert_id_roundtrip_witness :
    (convertX6ToElk defaultConfig
        [⟨("A"), 0, 0, 10, 10, none, none, none⟩, ⟨("B"), 0, 30, 10, 10, none, none, none⟩]
        [⟨("e"), ("A"), ("B")⟩] defaultX6Opts).children.map ElkNodeDesc.id =
      [⟨("A"), 0, 0, 10, 10, none, none, none⟩,
        ⟨("B"), 0, 30, 10, 10, none, none, none⟩].map X6Node.id :=
  (convert_id_roundtrip defaultConfig defaultX6Opts
    [⟨("A"), 0, 0, 10, 10, none, none, none⟩, ⟨("B"), 0, 30, 10, 10, none, none, none⟩]
    [⟨("e"), ("A"), ("B")⟩] (by decide) (by decide)).1

/-- Reading a spread result at a key the overrides do not carry. -/
theorem objGet_objSpread_none {α : Type} {base overrides : List (String × α)}
    {k : String} (h : jsMapGet overrides k = none) :
    objGet (objSpread base overrides) k = objGet base k := by
  rw [objGet_objSpread, h]

/-- Reading a spread result at a key the overrides carry. -/
theorem objGet_objSpread_some {α : Type} {base overrides : List (String × α)}
    {k : String} {v : α} (h : jsMapGet overrides k = some v) :
    objGet (objSpread base overrides) k = some v := by
  rw [objGet_objSpread, h]

/-- Claim C5: each of the four spacing directives is floored at its
configured minimum — `nodeNode` at 30, `nodeNodeBetweenLayers` at 60,
`edgeNodeBetweenLayers` at 30, `edgeEdge` at 20; whenever the
configured value lies below the minimum (and the caller's
`layoutOptions` do not override that directive) the emitted directive
equals the minimum, never the supplied value — while any directive the
caller supplies in `layoutOptions` wins over the computed default. -/
theorem buildLayoutOptions_spacing_floor (config : ElkLayoutConfig)
    (options : X6ToElkOptions) :
    (∀ v : Int, config.spacing.nodeNode = some v → v < 30 →
      jsMapGet config.layoutOptions ("elk.spacing.nodeNode") = none →
      objGet (buildLayoutOptions config options) ("elk.spacing.nodeNode") =
        some (toString (30 : Int))) ∧
    (∀ v : Int, config.spacing.nodeNodeBetweenLayers = some v → v < 60 →
      jsMapGet config.layoutOptions ("elk.layered.spacing.nodeNodeBetweenLayers") = none →
      objGet (buildLayoutOptions config options)
          ("elk.layered.spacing.nodeNodeBetweenLayers") =
        some (toString (60 : Int))) ∧
    (∀ v : Int, config.spacing.edgeNodeBetweenLayers = some v → v < 30 →
      jsMapGet config.layoutOptions ("elk.layered.spacing.edgeNodeBetweenLayers") = none →
      objGet (buildLayoutOptions config options)
          ("elk.layered.spacing.edgeNodeBetweenLayers") =
        some (toString (30 : Int))) ∧
    (∀ v : Int, config.spacing.edgeEdge = some v → v < 20 →
      jsMapGet config.layoutOptions ("elk.spacing.edgeEdge") = none →
      objGet (buildLayoutOptions config options) ("elk.spacing.edgeEdge") =
        some (toString (20 : Int))) ∧
    (∀ (k w : String), jsMapGet config.layoutOptions k = some w →
      objGet (buildLayoutOptions config options) k = some w) := by
  refine ⟨?_, ?_, ?_, ?_, ?_⟩
  · intro v hv hlt hnone
    have hmax : max (jsOrNum config.spacing.nodeNode 30) 30 = 30 := by
      rw [hv]
      unfold jsOrNum
      by_cases h0 : v = 0
      · simp [h0]
      · simp only [h0, if_false]
        exact max_eq_right (le_of_lt hlt)
    rw [buildLayoutOptions, objGet_objSpread_none hnone, hmax]
    simp [objGet]
  · intro v hv hlt hnone
    have hmax : max (jsOrNum config.spacing.nodeNodeBetweenLayers 60) 60 = 60 := by
      rw [hv]
      unfold jsOrNum
      by_cases h0 : v = 0
      · simp [h0]
      · simp only [h0, if_false]
        exact max_eq_right (le_of_lt hlt)
    rw [buildLayoutOptions, objGet_objSpread_none hnone, hmax]
    simp [objGet]
  · intro v hv hlt hnone
    have hmax : max (jsOrNum config.spacing.edgeNodeBetweenLayers 30) 30 = 30 := by
      rw [hv]
      unfold jsOrNum
      by_cases h0 : v = 0
      · simp [h0]
      · simp only [h0, if_false]
        exact max_eq_right (le_of_lt hlt)
    rw [buildLayoutOptions, objGet_objSpread_none hnone, hmax]
    simp [objGet]
  · intro v hv hlt hnone
    have hmax : max (jsOrNum config.spacing.edgeEdge 20) 20 = 20 := by
      rw [hv]
      unfold jsOrNum
      by_cases h0 : v = 0
      · simp [h0]
      · simp only [h0, if_false]
        exact max_eq_right (le_of_lt hlt)
    rw [buildLayoutOptions, objGet_objSpread_none hnone, hmax]
    simp [objGet]
  · intro k w hk
    rw [buildLayoutOptions, objGet_objSpread_some hk]

theorem buildLayoutOptions_spacing_floor_witness :
    (objGet (buildLayoutOptions
        ⟨("layered"), ("DOWN"), ⟨some 10, some 10, some 10, some 10⟩, true,
          [(("elk.algorithm"), ("force"))]⟩ defaultX6Opts)
      ("elk.spacing.nodeNode") = some (toString (30 : Int))) ∧
    (objGet (buildLayoutOptions
        ⟨("layered"), ("DOWN"), ⟨some 10, some 10, some 10, some 10⟩, true,
          [(("elk.algorithm"), ("force"))]⟩ defaultX6Opts)
      ("elk.layered.spacing.nodeNodeBetweenLayers") = some (toString (60 : Int))) ∧
    (objGet (buildLayoutOptions
        ⟨("layered"), ("DOWN"), ⟨some 10, some 10, some 10, some 10⟩, true,
          [(("elk.algorithm"), ("force"))]⟩ defaultX6Opts)
      ("elk.layered.spacing.edgeNodeBetweenLayers") = some (toString (30 : Int))) ∧
    (objGet (buildLayoutOptions
        ⟨("layered"), ("DOWN"), ⟨some 10, some 10, some 10, some 10⟩, true,
          [(("elk.algorithm"), ("force"))]⟩ defaultX6Opts)
      ("elk.spacing.edgeEdge") = some (toString (20 : Int))) ∧
    (objGet (buildLayoutOptions
        ⟨("layered"), ("DOWN"), ⟨some 10, some 10, some 10, some 10⟩, true,
          [(("elk.algorithm"), ("force"))]⟩ defaultX6Opts)
      ("elk.algorithm") = some ("force")) :=
  ⟨(buildLayoutOptions_spacing_floor _ defaultX6Opts).1 10 rfl (by decide) (by decide),
   (buildLayoutOptions_spacing_floor _ defaultX6Opts).2.1 10 rfl (by decide) (by decide),
   (buildLayoutOptions_spacing_floor _ defaultX6Opts).2.2.1 10 rfl (by decide) (by decide),
   (buildLayoutOptions_spacing_floor _ defaultX6Opts).2.2.2.1 10 rfl (by decide) (by decide),
   (buildLayoutOptions_spacing_floor _ defaultX6Opts).2.2.2.2 ("elk.algorithm") ("force")
     (by decide)⟩

/-- Counterexample to claim C6: `performLayout` has no empty-input
check — on zero nodes it still consults the layout engine, and an
engine reporting a non-zero layout size makes the result differ from
the empty result the claim promises. -/
theorem performLayout_empty_nodes_counterexample :
    performLayout defaultConfig (fun _ => ⟨some [], some [], some 100, some 50⟩)
        [] [] defaultX6Opts ≠ emptyLayoutResult := by
  decide

/-- Claim C6 (amended): the two graph-level entry points
`applyLayoutToGraph` and `applyFlowchartLayout` short-circuit on a
graph with zero nodes to the empty result with zero-sized bounds,
performing no writes and never consulting the engine (the result is the
same for every engine); `performLayout` itself performs no such check
and forwards the empty node list to the engine. -/
theorem empty_nodes_short_circuit :
    (∀ (config : ElkLayoutConfig) (engine : ElkGraphDesc → ElkGraphRes)
        (graph : X6Graph) (options : X6ToElkOptions) (animationDuration : Int),
      graph.nodes = [] →
      applyLayoutToGraph config engine graph options animationDuration =
        (emptyLayoutResult, [])) ∧
    (∀ (engine : ElkGraphDesc → ElkGraphRes) (graph : X6Graph)
        (options : FlowchartOptions),
      graph.nodes = [] →
      applyFlowchartLayout engine graph options = (emptyLayoutResult, [])) := by
  constructor
  · intro config engine graph options d h
    rw [applyLayoutToGraph, if_pos (by rw [h]; rfl)]
  · intro engine graph options h
    rw [applyFlowchartLayout, if_pos (by rw [h]; rfl)]

theorem empty_nodes_short_circuit_witness :
    applyLayoutToGraph defaultConfig (fun _ => ⟨some [], some [], some 100, some 50⟩)
        ⟨[], []⟩ defaultX6Opts 300 = (emptyLayoutResult, []) :=
  empty_nodes_short_circuit.1 defaultConfig
    (fun _ => ⟨some [], some [], some 100, some 50⟩) ⟨[], []⟩ defaultX6Opts 300 rfl

/-- The write list of `applyLayoutToGraph`, characterized: exactly one
position write per result node whose original survives (eased when the
duration is positive), exactly one vertex write per result edge whose
original survives and whose new vertex list is non-empty, and nothing
else. -/
theorem applyEffects_eq (r : ElkLayoutResult) (d : Int) :
    applyEffects r d =
      r.nodes.filterMap (fun rn => rn.originalNode.map (fun n =>
        ApplyEffect.setPosition n rn.x rn.y
          (if d > 0 then some (d, ("ease-in-out")) else none))) ++
      r.edges.filterMap (fun re =>
        match re.originalEdge with
        | some e =>
          if re.vertices.length > 0 then
            some (ApplyEffect.setVertices e re.vertices)
          else none
        | none => none) := by
  have hedge : ∀ (l : List ResEdge) (acc : List ApplyEffect),
      l.foldl (fun acc edgeResult =>
        match edgeResult.originalEdge with
        | some edge =>
          if edgeResult.vertices.length > 0 then
            acc ++ [ApplyEffect.setVertices edge edgeResult.vertices]
          else acc
        | none => acc) acc =
      acc ++ l.filterMap (fun re =>
        match re.originalEdge with
        | some e =>
          if re.vertices.length > 0 then
            some (ApplyEffect.setVertices e re.vertices)
          else none
        | none => none) := by
    intro l
    induction l with
    | nil => intro acc; simp
    | cons b rest ih =>
      intro acc
      rw [List.foldl_cons, List.filterMap_cons]
      cases hb : b.originalEdge with
      | some e =>
        by_cases hv : b.vertices.length > 0
        · simp [hb, hv, ih]
        · simp [hb, hv, ih]
      | none => simp [hb, ih]
  have hnodeAnim : ∀ (t : Option (Int × String)) (l : List ResNode)
      (acc : List ApplyEffect),
      l.foldl (fun acc nodeResult =>
        match nodeResult.originalNode with
        | some node =>
          acc ++ [ApplyEffect.setPosition node nodeResult.x nodeResult.y t]
        | none => acc) acc =
      acc ++ l.filterMap (fun rn => rn.originalNode.map (fun n =>
        ApplyEffect.setPosition n rn.x rn.y t)) := by
    intro t l
    induction l with
    | nil => intro acc; simp
    | cons b rest ih =>
      intro acc
      rw [List.foldl_cons, List.filterMap_cons]
      cases hb : b.originalNode with
      | some n => simp [hb, ih]
      | none => simp [hb, ih]
  by_cases hd : d > 0
  · rw [applyEffects, if_pos hd]
    show _ ++ _ = _
    rw [hnodeAnim (some (d, ("ease-in-out"))) r.nodes [], hedge r.edges []]
    have hfn : (fun rn : ResNode => rn.originalNode.map (fun n =>
        ApplyEffect.setPosition n rn.x rn.y (some (d, ("ease-in-out"))))) =
        (fun rn : ResNode => rn.originalNode.map (fun n =>
          ApplyEffect.setPosition n rn.x rn.y
            (if d > 0 then some (d, ("ease-in-out")) else none))) := by
      funext rn
      rw [if_pos hd]
    rw [hfn]
    simp
  · rw [applyEffects, if_neg hd]
    show _ ++ _ = _
    rw [hnodeAnim none r.nodes [], hedge r.edges []]
    have hfn : (fun rn : ResNode => rn.originalNode.map (fun n =>
        ApplyEffect.setPosition n rn.x rn.y none)) =
        (fun rn : ResNode => rn.originalNode.map (fun n =>
          ApplyEffect.setPosition n rn.x rn.y
            (if d > 0 then some (d, ("ease-in-out")) else none))) := by
      funext rn
      rw [if_neg hd]
    rw [hfn]
    simp


/-- Counterexample to claim C7: a layout run whose engine reports no
bend points leaves a matched edge's entry with an empty vertex list,
and `applyLayoutToGraph` then performs no vertex write for that edge —
the matched edge's new (empty) bend-point list is not written onto the
live edge. -/
theorem applyLayout_empty_vertices_counterexample :
    applyLayoutToGraph defaultConfig
        (fun _ => (⟨some [⟨("n1"), some 5, some 6, some 10, some 10⟩],
          some [⟨("e1"), [("n1")], [("n1")], none⟩], some 20, some 20⟩ : ElkGraphRes))
        (⟨[⟨("n1"), 0, 0, 10, 10, none, none, none⟩], [⟨("e1"), ("n1"), ("n1")⟩]⟩ : X6Graph)
        defaultX6Opts 300 =
      (⟨[⟨("n1"), 5, 6, 10, 10, some ⟨("n1"), 0, 0, 10, 10, none, none, none⟩⟩],
        [⟨("e1"), ("n1"), ("n1"), [], some ⟨("e1"), ("n1"), ("n1")⟩⟩], (20, 20)⟩,
        [ApplyEffect.setPosition ⟨("n1"), 0, 0, 10, 10, none, none, none⟩ 5 6
          (some (300, ("ease-in-out")))]) := by
  decide

/-- Claim C7 (amended): on a non-empty graph, `applyLayoutToGraph`
returns the layout result together with exactly these writes: one
position write per matched result node — an eased transition of the
requested duration when it is positive, a direct write otherwise — and
one vertex-list write per matched result edge whose new bend-point
list is non-empty; unmatched nodes and edges are skipped without
error, matched edges with an empty bend-point list are also skipped,
and nothing else is written. -/
theorem applyLayoutToGraph_write_spec (config : ElkLayoutConfig)
    (engine : ElkGraphDesc → ElkGraphRes) (graph : X6Graph)
    (options : X6ToElkOptions) (animationDuration : Int)
    (hne : graph.nodes ≠ []) :
    applyLayoutToGraph config engine graph options animationDuration =
      (performLayout config engine graph.nodes graph.edges options,
        (performLayout config engine graph.nodes graph.edges options).nodes.filterMap
          (fun rn => rn.originalNode.map (fun n =>
            ApplyEffect.setPosition n rn.x rn.y
              (if animationDuration > 0
                then some (animationDuration, ("ease-in-out")) else none))) ++
        (performLayout config engine graph.nodes graph.edges options).edges.filterMap
          (fun re =>
            match re.originalEdge with
            | some e =>
              if re.vertices.length > 0 then
                some (ApplyEffect.setVertices e re.vertices)
              else none
            | none => none)) := by
  rw [applyLayoutToGraph,
    if_neg (fun hh => hne (List.length_eq_zero.mp hh))]
  show (performLayout config engine graph.nodes graph.edges options,
    applyEffects (performLayout config engine graph.nodes graph.edges options)
      animationDuration) = _
  rw [applyEffects_eq]

theorem applyLayoutToGraph_write_spec_witness :
    applyLayoutToGraph defaultConfig
        (fun _ => (⟨some [⟨("n1"), some 5, some 6, some 10, some 10⟩],
          some [⟨("e1"), [("n1")], [("n1")], some [⟨some [(7, 8)]⟩]⟩],
          some 20, some 20⟩ : ElkGraphRes))
        (⟨[⟨("n1"), 0, 0, 10, 10, none, none, none⟩], [⟨("e1"), ("n1"), ("n1")⟩]⟩ : X6Graph)
        defaultX6Opts 300 =
      (performLayout defaultConfig
          (fun _ => (⟨some [⟨("n1"), some 5, some 6, some 10, some 10⟩],
            some [⟨("e1"), [("n1")], [("n1")], some [⟨some [(7, 8)]⟩]⟩],
            some 20, some 20⟩ : ElkGraphRes))
          [⟨("n1"), 0, 0, 10, 10, none, none, none⟩] [⟨("e1"), ("n1"), ("n1")⟩]
          defaultX6Opts,
        (performLayout defaultConfig
            (fun _ => (⟨some [⟨("n1"), some 5, some 6, some 10, some 10⟩],
              some [⟨("e1"), [("n1")], [("n1")], some [⟨some [(7, 8)]⟩]⟩],
              some 20, some 20⟩ : ElkGraphRes))
            [⟨("n1"), 0, 0, 10, 10, none, none, none⟩] [⟨("e1"), ("n1"), ("n1")⟩]
            defaultX6Opts).nodes.filterMap
          (fun rn => rn.originalNode.map (fun n =>
            ApplyEffect.setPosition n rn.x rn.y
              (if (300 : Int) > 0 then some ((300 : Int), ("ease-in-out")) else none))) ++
        (performLayout defaultConfig
            (fun _ => (⟨some [⟨("n1"), some 5, some 6, some 10, some 10⟩],
              some [⟨("e1"), [("n1")], [("n1")], some [⟨some [(7, 8)]⟩]⟩],
              some 20, some 20⟩ : ElkGraphRes))
            [⟨("n1"), 0, 0, 10, 10, none, none, none⟩] [⟨("e1"), ("n1"), ("n1")⟩]
            defaultX6Opts).edges.filterMap
          (fun re =>
            match re.originalEdge with
            | some e =>
              if re.vertices.length > 0 then
                some (ApplyEffect.setVertices e re.vertices)
              else none
            | none => none)) :=
  applyLayoutToGraph_write_spec defaultConfig
    (fun _ => (⟨some [⟨("n1"), some 5, some 6, some 10, some 10⟩],
      some [⟨("e1"), [("n1")], [("n1")], some [⟨some [(7, 8)]⟩]⟩],
      some 20, some 20⟩ : ElkGraphRes))
    (⟨[⟨("n1"), 0, 0, 10, 10, none, none, none⟩], [⟨("e1"), ("n1"), ("n1")⟩]⟩ : X6Graph)
    defaultX6Opts 300 (by decide)

/-- Claim C9: requesting a preset name outside the known set returns
the same configuration bundle as requesting `flowchart` explicitly. -/
theorem createPresetConfig_fallback (preset : String)
    (h : preset ∉ [("flowchart" : String), ("hierarchy"), ("network"),
      ("circular"), ("clear")]) :
    createPresetConfig preset = createPresetConfig ("flowchart") := by
  have h1 : ("flowchart" : String) ≠ preset := by
    intro hh; exact h (by rw [← hh]; simp)
  have h2 : ("hierarchy" : String) ≠ preset := by
    intro hh; exact h (by rw [← hh]; simp)
  have h3 : ("network" : String) ≠ preset := by
    intro hh; exact h (by rw [← hh]; simp)
  have h4 : ("circular" : String) ≠ preset := by
    intro hh; exact h (by rw [← hh]; simp)
  have h5 : ("clear" : String) ≠ preset := by
    intro hh; exact h (by rw [← hh]; simp)
  simp [createPresetConfig, presetTable, objGet, h1, h2, h3, h4, h5]

theorem createPresetConfig_fallback_witness :
    createPresetConfig ("bogus") = createPresetConfig ("flowchart") :=
  createPresetConfig_fallback ("bogus") (by decide)

end ElkLayoutProcessor

namespace Guide

open ElkLayoutProcessor in
/-- The `flowchart` preset of the guide's JavaScript `createPresetConfig`
(identical content to the TypeScript one). -/
def presetFlowchart : ElkConfigInput := ElkLayoutProcessor.presetFlowchart

/-- The `hierarchy` preset of the guide's JavaScript
`createPresetConfig`. -/
def presetHierarchy : ElkLayoutProcessor.ElkConfigInput :=
  ⟨some ("mrtree"), some ("DOWN"),
    some ⟨some 100, some 50, some 60, some 30⟩, none,
    some
      [ (("elk.mrtree.searchOrder"), ("DFS"))
      , (("elk.edge.routing"), ("POLYLINE"))
      ]⟩

/-- The `network` preset of the guide's JavaScript `createPresetConfig`. -/
def presetNetwork : ElkLayoutProcessor.ElkConfigInput :=
  ⟨some ("force"), some ("UNDEFINED"),
    some ⟨none, none, some 80, some 40⟩, none,
    some
      [ (("elk.force.repulsion"), ("200.0"))
      , (("elk.force.attraction"), ("0.1"))
      , (("elk.force.iterations"), ("300"))
      , (("elk.edge.routing"), ("SPLINES"))
      ]⟩

/-- The `circular` preset of the guide's JavaScript `createPresetConfig`. -/
def presetCircular : ElkLayoutProcessor.ElkConfigInput :=
  ⟨some ("radial"), some ("UNDEFINED"),
    some ⟨none, none, some 100, some 50⟩, none,
    some
      [ (("elk.radial.radius"), ("150.0"))
      , (("elk.radial.compaction"), ("true"))
      , (("elk.edge.routing"), ("SPLINES"))
      ]⟩

/-- The `compact` preset of the guide's JavaScript `createPresetConfig`. -/
def presetCompact : ElkLayoutProcessor.ElkConfigInput :=
  ⟨some ("layered"), some ("RIGHT"),
    some ⟨some 40, some 20, some 30, some 15⟩, none,
    some
      [ (("elk.layered.compaction.connectedComponents"), ("true"))
      , (("elk.layered.compaction.postCompaction.strategy"), ("EDGE_LENGTH"))
      , (("elk.edge.routing"), ("ORTHOGONAL"))
      ]⟩

/-- The `clear` preset of the guide's JavaScript `createPresetConfig`
(identical content to the TypeScript one). -/
def presetClear : ElkLayoutProcessor.ElkConfigInput := ElkLayoutProcessor.presetClear

/-- The preset table of the guide's JavaScript `createPresetConfig`,
in source order. -/
def presetTable : List (String × ElkLayoutProcessor.ElkConfigInput) :=
  [ (("flowchart"), presetFlowchart)
  , (("hierarchy"), presetHierarchy)
  , (("network"), presetNetwork)
  , (("circular"), presetCircular)
  , (("compact"), presetCompact)
  , (("clear"), presetClear)
  ]

/-- `createPresetConfig` (guide JavaScript version):
`presets[preset] || presets.flowchart`. -/
def createPresetConfig (preset : String) : ElkLayoutProcessor.ElkConfigInput :=
  (objGet presetTable preset).getD presetFlowchart

/-- The degree map built by `smartLayout`: each edge increments the
counts of its source and of its target. -/
def degreeMap (edges : List ElkLayoutProcessor.X6Edge) : List (String × Nat) :=
  edges.foldl (fun m edge =>
    let m1 := objSet m edge.source ((objGet m edge.source).getD 0 + 1)
    objSet m1 edge.target ((objGet m1 edge.target).getD 0 + 1)) []

/-- `Math.max(...degreeMap.values(), 0)`. -/
def maxDegree (edges : List ElkLayoutProcessor.X6Edge) : Nat :=
  (degreeMap edges).foldl (fun m p => max m p.2) 0

/-- The spacing-scaling loop of `smartLayout`: every present spacing
field is multiplied by the factor and rounded (`Math.round`). -/
def scaleSpacing (sp : ElkLayoutProcessor.Spacing) (m : ℚ) :
    ElkLayoutProcessor.Spacing :=
  { nodeNodeBetweenLayers :=
      sp.nodeNodeBetweenLayers.map (fun v => jsRound ((v : ℚ) * m))
    edgeNodeBetweenLayers :=
      sp.edgeNodeBetweenLayers.map (fun v => jsRound ((v : ℚ) * m))
    nodeNode := sp.nodeNode.map (fun v => jsRound ((v : ℚ) * m))
    edgeEdge := sp.edgeEdge.map (fun v => jsRound ((v : ℚ) * m)) }

/-- Scaling applied to a preset configuration when its `spacing` block
is present (`if (layoutConfig.spacing)` in the source). -/
def scaleCfg (c : ElkLayoutProcessor.ElkConfigInput) (m : ℚ) :
    ElkLayoutProcessor.ElkConfigInput :=
  { c with spacing := c.spacing.map (fun sp => scaleSpacing sp m) }

/-- The analysis-and-selection portion of the guide's `smartLayout`
(lines between the empty-input check and the processor construction):
compute node count, edge count, edge density
`edgeCount / (nodeCount * (nodeCount - 1) / 2)` and the maximum node
degree; pick a preset by thresholding; force SPLINES edge routing on
the network branch; then scale every present spacing value by
`Math.max(1, Math.min(2, nodeCount / 15))`, rounding each product.
The division guards mirror IEEE semantics at a zero denominator
(`0 / 0` is `NaN` and `x / 0` for positive `x` is `Infinity`, so
`density < 0.3` is false in both cases while `density > 0.5` holds
exactly when the edge count is positive). The second component is the
`edgeRouting` option handed to the conversion (`ORTHOGONAL` defaulted,
overridden by the caller's option, forced to SPLINES on the network
branch). -/
def smartLayoutConfig (nodes : List ElkLayoutProcessor.X6Node)
    (edges : List ElkLayoutProcessor.X6Edge) (optRouting : Option String) :
    ElkLayoutProcessor.ElkConfigInput × String :=
  let nodeCount := nodes.length
  let edgeCount := edges.length
  let denom : ℚ := ((nodeCount : ℚ) * ((nodeCount : ℚ) - 1)) / 2
  let md := maxDegree edges
  let baseRouting := optRouting.getD ("ORTHOGONAL")
  let pick : ElkLayoutProcessor.ElkConfigInput × String :=
    if nodeCount ≤ 10 ∧ ¬ denom = 0 ∧ (edgeCount : ℚ) / denom < 3/10 then
      (createPresetConfig ("clear"), baseRouting)
    else if nodeCount ≤ 20 ∧ md ≤ 3 then
      (createPresetConfig ("flowchart"), baseRouting)
    else if (if denom = 0 then 0 < edgeCount else (edgeCount : ℚ) / denom > 1/2) ∨
        md > 5 then
      (createPresetConfig ("network"), ("SPLINES"))
    else if nodeCount > 30 then
      (createPresetConfig ("compact"), baseRouting)
    else
      (createPresetConfig ("hierarchy"), baseRouting)
  let m : ℚ := max 1 (min 2 ((nodeCount : ℚ) / 15))
  (scaleCfg pick.1 m, pick.2)

/-- The preset name chosen by the thresholds exactly as claim C8 words
them, stated over the true density ratio (defined when the node count
is at least 2). This definition follows the claim's wording and is
compared against `smartLayoutConfig`, which follows the source. -/
def specSmartPresetName (nodeCount _edgeCount maxDeg : Nat) (density : ℚ) : String :=
  if nodeCount ≤ 10 ∧ density < 3/10 then ("clear")
  else if nodeCount ≤ 20 ∧ maxDeg ≤ 3 then ("flowchart")
  else if density > 1/2 ∨ maxDeg > 5 then ("network")
  else if nodeCount > 30 then ("compact")
  else ("hierarchy")

/-- Claim C8: on a graph with at least two nodes (so that the density
ratio is defined), `smartLayout` selects its preset purely by
thresholding node count, edge count, density and maximum degree —
`nodeCount <= 10` and density below 0.3 gives `clear`;
`nodeCount <= 20` with maximum degree at most 3 gives `flowchart`;
density above 0.5 or maximum degree above 5 gives `network` with
SPLINES edge routing; `nodeCount > 30` gives `compact`; otherwise
`hierarchy` — and then scales every spacing value of the chosen preset
uniformly by `max(1, min(2, nodeCount / 15))` (rounding each scaled
value to the nearest integer). -/
theorem smartLayout_selection (nodes : List ElkLayoutProcessor.X6Node)
    (edges : List ElkLayoutProcessor.X6Edge) (optRouting : Option String)
    (h2 : 2 ≤ nodes.length) :
    smartLayoutConfig nodes edges optRouting =
      (scaleCfg
        (createPresetConfig (specSmartPresetName nodes.length edges.length
          (maxDegree edges)
          ((edges.length : ℚ) / (((nodes.length : ℚ) * ((nodes.length : ℚ) - 1)) / 2))))
        (max 1 (min 2 ((nodes.length : ℚ) / 15))),
       if specSmartPresetName nodes.length edges.length (maxDegree edges)
           ((edges.length : ℚ) / (((nodes.length : ℚ) * ((nodes.length : ℚ) - 1)) / 2)) =
          ("network")
       then ("SPLINES") else optRouting.getD ("ORTHOGONAL")) := by
  have hn : (2 : ℚ) ≤ (nodes.length : ℚ) := by exact_mod_cast h2
  have hdenom : ((nodes.length : ℚ) * ((nodes.length : ℚ) - 1)) / 2 ≠ 0 := by
    have h1 : (1 : ℚ) ≤ (nodes.length : ℚ) - 1 := by linarith
    have hpos : (0 : ℚ) < ((nodes.length : ℚ) * ((nodes.length : ℚ) - 1)) / 2 := by
      have : (0 : ℚ) < (nodes.length : ℚ) * ((nodes.length : ℚ) - 1) := by nlinarith
      linarith
    exact ne_of_gt hpos
  rw [smartLayoutConfig, specSmartPresetName]
  simp only [hdenom, not_false_eq_true, true_and, if_false]
  split_ifs <;> simp_all

theorem smartLayout_selection_witness :
    (2 ≤ ([⟨("a"), 0, 0, 10, 10, none, none, none⟩,
      ⟨("b"), 0, 0, 10, 10, none, none, none⟩,
      ⟨("c"), 0, 0, 10, 10, none, none, none⟩] :
        List ElkLayoutProcessor.X6Node).length) ∧
    smartLayoutConfig
        [⟨("a"), 0, 0, 10, 10, none, none, none⟩,
          ⟨("b"), 0, 0, 10, 10, none, none, none⟩,
          ⟨("c"), 0, 0, 10, 10, none, none, none⟩]
        [⟨("e1"), ("a"), ("b")⟩, ⟨("e2"), ("b"), ("c")⟩] none =
      (scaleCfg
        (createPresetConfig (specSmartPresetName 3 2
          (maxDegree [⟨("e1"), ("a"), ("b")⟩, ⟨("e2"), ("b"), ("c")⟩])
          ((2 : ℚ) / (((3 : ℚ) * ((3 : ℚ) - 1)) / 2))))
        (max 1 (min 2 ((3 : ℚ) / 15))),
       if specSmartPresetName 3 2
           (maxDegree [⟨("e1"), ("a"), ("b")⟩, ⟨("e2"), ("b"), ("c")⟩])
           ((2 : ℚ) / (((3 : ℚ) * ((3 : ℚ) - 1)) / 2)) = ("network")
       then ("SPLINES") else (none : Option String).getD ("ORTHOGONAL")) := by
  constructor
  · decide
  · have h := smartLayout_selection
      [⟨("a"), 0, 0, 10, 10, none, none, none⟩,
        ⟨("b"), 0, 0, 10, 10, none, none, none⟩,
        ⟨("c"), 0, 0, 10, 10, none, none, none⟩]
      [⟨("e1"), ("a"), ("b")⟩, ⟨("e2"), ("b"), ("c")⟩] none (by decide)
    simpa using h

end Guide
